import Mathlib

/-!
Shallow embedding of the authentication/session core of the `settle`
repository (NestJS API, `apps/api/src/auth` and `apps/api/src/users`),
together with proofs of its specified properties.

Modelling conventions:
* Persistent state (`St`) holds the two Prisma tables touched by this core:
  `User` and `RefreshToken` (schema from the SQL migrations).
* Each service method becomes a pure function `... → Except Err α × St`;
  a thrown Nest exception becomes `.error` paired with the state as it
  stands at the throw site (writes performed before the throw are kept,
  as in the code).
* External library primitives are abstracted as parameters:
  `hash` stands for `createHash('sha256')...digest('hex')` (node crypto),
  `bcryptHash` for `bcrypt.hash(password, 10)`, and a `Fresh` record
  supplies the outputs of `randomBytes(40).toString('hex')` and the
  database-generated row ids.  Theorems quantify over these, so they hold
  in particular for the real SHA-256 / bcrypt instantiations.
* JWTs (the `jsonwebtoken` library behind `JwtService`) are modelled
  structurally: a signed token is a record carrying its claims, its
  expiry and the key it was signed with; `jwtVerify` checks the key and
  the expiry.  A wire-format string is related to such a record by a
  `decode` parameter (`none` = malformed).
* Timestamps are `Nat` (one ambient clock; the ms-vs-s unit difference
  between `expiresAt` and JWT `exp` does not matter because the two
  clocks are never compared with each other).
-/

namespace Settle

/-- A row of the `User` table (Prisma schema, migration `part_000`):
`id`, optional `email`, optional `passwordHash`, optional `displayName`,
`isGuest`.  Columns not touched by the auth core (`inviteCode`,
timestamps) are omitted. -/
structure User where
  id : String
  email : Option String
  passwordHash : Option String
  displayName : Option String
  isGuest : Bool
deriving Repr, DecidableEq

/-- A row of the `RefreshToken` table: db id, SHA-256 fingerprint of the
raw token, owning user id, absolute expiry (ms timestamp). -/
structure RefreshTokenRec where
  id : String
  tokenHash : String
  userId : String
  expiresAt : Nat
deriving Repr, DecidableEq

/-- The persistent state seen by the auth core: the two Prisma tables. -/
structure St where
  users : List User
  refreshTokens : List RefreshTokenRec
deriving Repr, DecidableEq

/-- Nest exception classes thrown by the core, with their messages.
`fatal` stands for an unhandled store failure (e.g. a unique-constraint
violation that was not pre-checked). -/
inductive Err where
  | unauthorized (msg : String)
  | conflict (msg : String)
  | badRequest (msg : String)
  | fatal (msg : String)
deriving Repr, DecidableEq

/-! ## Identity Store (`UsersService`, `apps/api/src/users/users.service.ts`) -/

/-- `prisma.user.findUnique({ where: { id } })`. -/
def findById (users : List User) (id : String) : Option User :=
  users.find? (fun u => u.id == id)

/-- `prisma.user.findUnique({ where: { email } })`.  Guests have a null
email, so they never match a concrete email string. -/
def findByEmail (users : List User) (email : String) : Option User :=
  users.find? (fun u => u.email == some email)

/-- `UsersService.createGuest`: `prisma.user.create({ data: { isGuest: true } })`.
`freshId` is the database-generated id; the unique primary-key
constraint rejects a (never expected) id collision. -/
def createGuest (s : St) (freshId : String) : Except Err User × St :=
  if (findById s.users freshId).isSome then
    (.error (.fatal "unique constraint violation on User.id"), s)
  else
    let u : User := ⟨freshId, none, none, none, true⟩
    (.ok u, { s with users := s.users ++ [u] })

/-- `UsersService.upgradeGuest`: re-reads the user, throws `BadRequest`
when it is missing or not a guest, throws `Conflict` when the email is
taken, otherwise updates the row in place (Prisma leaves `displayName`
unchanged when the input field is `undefined`). -/
def upgradeGuest (s : St) (userId : String) (email passwordHash : String)
    (displayName : Option String) : Except Err User × St :=
  match findById s.users userId with
  | none => (.error (.badRequest "User is not a guest"), s)
  | some user =>
    if !user.isGuest then (.error (.badRequest "User is not a guest"), s)
    else
      match findByEmail s.users email with
      | some _ => (.error (.conflict "Email already in use"), s)
      | none =>
        let u' : User :=
          { user with
              email := some email
              passwordHash := some passwordHash
              displayName :=
                match displayName with
                | some d => some d
                | none => user.displayName
              isGuest := false }
        (.ok u', { s with users := s.users.map (fun u => if u.id == userId then u' else u) })

/-- `UsersService.createRegistered`: pre-checks email uniqueness
(`Conflict`), then creates the row with `isGuest: false`. -/
def createRegistered (s : St) (freshId : String) (email passwordHash : String)
    (displayName : Option String) : Except Err User × St :=
  match findByEmail s.users email with
  | some _ => (.error (.conflict "Email already in use"), s)
  | none =>
    if (findById s.users freshId).isSome then
      (.error (.fatal "unique constraint violation on User.id"), s)
    else
      let u : User := ⟨freshId, some email, some passwordHash, displayName, false⟩
      (.ok u, { s with users := s.users ++ [u] })

/-! ## Token Codec (`JwtService` + `jwt.strategy.ts`) -/

/-- A structurally modelled signed JWT: the claims of `JwtPayload`
(`sub`, `isGuest`), the embedded absolute expiry, and the key the token
was signed with (signature verification = key equality). -/
structure JwtClaims where
  sub : String
  isGuest : Bool
  exp : Nat
  key : String
deriving Repr, DecidableEq

/-- The decoded payload handed to `JwtStrategy.validate`. -/
structure JwtPayload where
  sub : String
  isGuest : Bool
deriving Repr, DecidableEq

/-- `jwtService.sign(payload, { secret, expiresIn })`. -/
def jwtSign (sub : String) (isGuest : Bool) (secret : String)
    (expiresInSec now : Nat) : JwtClaims :=
  ⟨sub, isGuest, now + expiresInSec, secret⟩

inductive JwtError where
  | malformed
  | badSignature
  | expired
deriving Repr, DecidableEq

/-- `jwtService.verify(token, { secret })` on a wire-format token string:
decoding failure, a signature made with a different key, or an elapsed
embedded expiry each throw. -/
def jwtVerify (decode : String → Option JwtClaims) (token secret : String)
    (now : Nat) : Except JwtError JwtPayload :=
  match decode token with
  | none => .error .malformed
  | some o =>
    if o.key ≠ secret then .error .badSignature
    else if o.exp ≤ now then .error .expired
    else .ok ⟨o.sub, o.isGuest⟩

/-- The object `JwtStrategy.validate` attaches to `req.user`. -/
structure CurrentUser where
  id : String
  email : Option String
  isGuest : Bool
deriving Repr, DecidableEq

/-- `JwtStrategy.validate`: looks the subject up in the Identity Store
and throws `Unauthorized` when the account no longer exists. -/
def jwtStrategyValidate (s : St) (payload : JwtPayload) : Except Err CurrentUser :=
  match findById s.users payload.sub with
  | none => .error (.unauthorized "User not found")
  | some user => .ok ⟨user.id, user.email, user.isGuest⟩

/-- The get-current-identity boundary operation: passport verifies the
bearer token's signature and expiry, then `JwtStrategy.validate` runs. -/
def getCurrentIdentity (decode : String → Option JwtClaims) (token secret : String)
    (now : Nat) (s : St) : Except Err CurrentUser :=
  match jwtVerify decode token secret now with
  | .error _ => .error (.unauthorized "Unauthorized")
  | .ok payload => jwtStrategyValidate s payload

/-! ## Session Manager (`AuthService`, `apps/api/src/auth/auth.service.ts`) -/

/-- The token pair returned by every minting operation. -/
structure TokenPair where
  accessToken : JwtClaims
  refreshToken : String
deriving Repr, DecidableEq

/-- Relevant configuration (`JWT_ACCESS_SECRET`,
`getExpiresSec('JWT_ACCESS_EXPIRES_IN', 900)`,
`getExpiresSec('JWT_REFRESH_EXPIRES_IN', 604800)` already resolved). -/
structure Cfg where
  accessSecret : String
  accessExpiresSec : Nat
  refreshExpiresSec : Nat
deriving Repr, DecidableEq

/-- The nondeterministic inputs of one `generateTokens` call:
`refreshValue` is `randomBytes(40).toString('hex')`, `rtId` the
database-generated id of the new `RefreshToken` row. -/
structure Fresh where
  refreshValue : String
  rtId : String
deriving Repr, DecidableEq

/-- `AuthService.generateTokens`: signs the access token, draws the raw
refresh value, stores `hash` of it with expiry `now + refreshExpiresSec
* 1000`, and returns the pair.  The unique constraints on
`RefreshToken.tokenHash` and `RefreshToken.id` reject a collision as an
unhandled write failure. -/
def generateTokens (hash : String → String) (cfg : Cfg) (userId : String)
    (isGuest : Bool) (f : Fresh) (now : Nat) (s : St) : Except Err TokenPair × St :=
  let accessToken := jwtSign userId isGuest cfg.accessSecret cfg.accessExpiresSec now
  let tokenHash := hash f.refreshValue
  let expiresAt := now + cfg.refreshExpiresSec * 1000
  if s.refreshTokens.any (fun r => r.tokenHash == tokenHash || r.id == f.rtId) then
    (.error (.fatal "unique constraint violation on RefreshToken"), s)
  else
    (.ok ⟨accessToken, f.refreshValue⟩,
     { s with refreshTokens := s.refreshTokens ++ [⟨f.rtId, tokenHash, userId, expiresAt⟩] })

/-- `AuthService.createGuest`: create the guest user, then mint a pair
with `isGuest = true`. -/
def authCreateGuest (hash : String → String) (cfg : Cfg) (freshUserId : String)
    (f : Fresh) (now : Nat) (s : St) : Except Err TokenPair × St :=
  match createGuest s freshUserId with
  | (.error e, s') => (.error e, s')
  | (.ok user, s') => generateTokens hash cfg user.id true f now s'

/-- `AuthService.register`: bcrypt-hash the password, upgrade the guest
when `guestUserId` is *truthy* (`if (guestUserId)` — so the empty string
counts as not supplied, like `undefined`), else create a registered
user; bulk delete the user's refresh-token rows, then mint a pair with
`isGuest = false`. -/
def register (hash bcryptHash : String → String) (cfg : Cfg)
    (email password : String) (displayName : Option String)
    (guestUserId : Option String) (freshUserId : String) (f : Fresh)
    (now : Nat) (s : St) : Except Err TokenPair × St :=
  let passwordHash := bcryptHash password
  let step : Except Err User × St :=
    match guestUserId with
    | some gid =>
      if gid = "" then createRegistered s freshUserId email passwordHash displayName
      else upgradeGuest s gid email passwordHash displayName
    | none => createRegistered s freshUserId email passwordHash displayName
  match step with
  | (.error e, s') => (.error e, s')
  | (.ok user, s') =>
    let s'' : St :=
      { s' with refreshTokens := s'.refreshTokens.filter (fun r => r.userId != user.id) }
    generateTokens hash cfg user.id false f now s''

/-- `AuthService.validateUser`: null on unknown email or a null stored
hash (guests); otherwise compare via bcrypt.  `bcryptCompare` abstracts
`bcrypt.compare`. -/
def validateUser (bcryptCompare : String → String → Bool) (s : St)
    (email password : String) : Option User :=
  match findByEmail s.users email with
  | none => none
  | some user =>
    match user.passwordHash with
    | none => none
    | some stored => if bcryptCompare password stored then some user else none

/-- `AuthService.login`: defensive re-resolution of the id, then mint a
pair with the account's current `isGuest` flag. -/
def login (hash : String → String) (cfg : Cfg) (userId : String) (f : Fresh)
    (now : Nat) (s : St) : Except Err TokenPair × St :=
  match findById s.users userId with
  | none => (.error (.unauthorized "Unauthorized"), s)
  | some user => generateTokens hash cfg user.id user.isGuest f now s

/-- `AuthService.refreshTokens`: fingerprint lookup; no record →
`Unauthorized` (reuse detection); expired record → delete it and throw
`Unauthorized`; otherwise delete the record (rotation) and mint a new
pair for the owning user's current state (the `include: { user: true }`
relation row, re-read from the store). -/
def refreshTokens (hash : String → String) (cfg : Cfg) (raw : String)
    (f : Fresh) (now : Nat) (s : St) : Except Err TokenPair × St :=
  let tokenHash := hash raw
  match s.refreshTokens.find? (fun r => r.tokenHash == tokenHash) with
  | none => (.error (.unauthorized "Invalid refresh token"), s)
  | some stored =>
    if stored.expiresAt < now then
      (.error (.unauthorized "Refresh token expired"),
       { s with refreshTokens := s.refreshTokens.filter (fun r => r.id != stored.id) })
    else
      let s' : St :=
        { s with refreshTokens := s.refreshTokens.filter (fun r => r.id != stored.id) }
      match findById s'.users stored.userId with
      | none => (.error (.fatal "missing user relation"), s')
      | some user => generateTokens hash cfg user.id user.isGuest f now s'

/-- `AuthService.logout`: falsy token → silent no-op; otherwise
`deleteMany` on the fingerprint (never throws). -/
def logout (hash : String → String) (raw : Option String) (s : St) : St :=
  match raw with
  | none => s
  | some t =>
    if t = "" then s
    else { s with refreshTokens := s.refreshTokens.filter (fun r => r.tokenHash != hash t) }

/-! ## Boundary (`AuthController`, `src/unnamed/part_002`) -/

/-- `AuthController.extractGuestUserId`: optional extraction of a guest
id from the `Authorization` header; any failure (no header, no `Bearer `
prefix, malformed/badly-signed/expired token) and any non-guest payload
yield `undefined`. -/
def extractGuestUserId (decode : String → Option JwtClaims) (secret : String)
    (now : Nat) (authHeader : Option String) : Option String :=
  match authHeader with
  | none => none
  | some h =>
    if h.startsWith "Bearer " then
      let token := ((h.splitOn " ").getD 1 "")
      match jwtVerify decode token secret now with
      | .error _ => none
      | .ok payload => if payload.isGuest then some payload.sub else none
    else none

/-- `AuthController.register`: extract an optional guest id from the
bearer header, then call `AuthService.register` with it. -/
def controllerRegister (hash bcryptHash : String → String)
    (decode : String → Option JwtClaims) (cfg : Cfg)
    (email password : String) (displayName : Option String)
    (authHeader : Option String) (freshUserId : String) (f : Fresh)
    (now : Nat) (s : St) : Except Err TokenPair × St :=
  let guestUserId := extractGuestUserId decode cfg.accessSecret now authHeader
  register hash bcryptHash cfg email password displayName guestUserId freshUserId f now s

deriving instance DecidableEq for Except

/-! ## Account-shape invariant and the core's operations as a step relation -/

/-- The account-shape contract: a guest has neither email nor credential
hash; a registered account has both. -/
def accountOk (u : User) : Prop :=
  (u.isGuest = true → u.email = none ∧ u.passwordHash = none) ∧
  (u.isGuest = false → u.email ≠ none ∧ u.passwordHash ≠ none)

instance : DecidablePred accountOk := fun u => by
  unfold accountOk
  infer_instance

/-- Every account of the Identity Store satisfies `accountOk`. -/
def usersOk (s : St) : Prop := ∀ u ∈ s.users, accountOk u

instance (s : St) : Decidable (usersOk s) := List.decidableBAll _ _

/-- One step of the core: any Identity Store mutation (create-guest,
create-registered, upgrade-guest) or any Session Manager operation
(guest session, register, login, refresh, logout), taken to its
resulting state — including the states reached through a thrown
exception. -/
inductive CoreStep (hash bcryptHash : String → String) (cfg : Cfg) : St → St → Prop where
  | createGuestUser (s : St) (freshId : String) :
      CoreStep hash bcryptHash cfg s (createGuest s freshId).2
  | createRegisteredUser (s : St) (freshId email ph : String) (dn : Option String) :
      CoreStep hash bcryptHash cfg s (createRegistered s freshId email ph dn).2
  | upgradeGuestUser (s : St) (uid email ph : String) (dn : Option String) :
      CoreStep hash bcryptHash cfg s (upgradeGuest s uid email ph dn).2
  | guestSession (s : St) (freshUserId : String) (f : Fresh) (now : Nat) :
      CoreStep hash bcryptHash cfg s (authCreateGuest hash cfg freshUserId f now s).2
  | registerSession (s : St) (email password : String) (dn : Option String)
      (gid : Option String) (freshUserId : String) (f : Fresh) (now : Nat) :
      CoreStep hash bcryptHash cfg s
        (register hash bcryptHash cfg email password dn gid freshUserId f now s).2
  | loginSession (s : St) (userId : String) (f : Fresh) (now : Nat) :
      CoreStep hash bcryptHash cfg s (login hash cfg userId f now s).2
  | refreshSession (s : St) (raw : String) (f : Fresh) (now : Nat) :
      CoreStep hash bcryptHash cfg s (refreshTokens hash cfg raw f now s).2
  | logoutSession (s : St) (raw : Option String) :
      CoreStep hash bcryptHash cfg s (logout hash raw s)

/-- Post-condition of a successful token-pair mint out of state `s`,
ending in state `s'` with pair `pair`: exactly one new refresh-token
record was persisted, its stored `tokenHash` is the fingerprint of the
returned raw refresh token, and an immediate refresh with that raw value
before its expiry (with fresh random inputs of its own) succeeds. -/
def mintPost (hash : String → String) (cfg : Cfg) (s : St) (pair : TokenPair)
    (s' : St) : Prop :=
  ∃ rec : RefreshTokenRec,
    rec ∈ s'.refreshTokens ∧
    rec.tokenHash = hash pair.refreshToken ∧
    rec ∉ s.refreshTokens ∧
    (∀ r' ∈ s'.refreshTokens, r' ∉ s.refreshTokens → r' = rec) ∧
    ∀ (f₂ : Fresh) (now₂ : Nat), ¬ rec.expiresAt < now₂ →
      (∀ r' ∈ s'.refreshTokens, r'.tokenHash ≠ hash f₂.refreshValue ∧ r'.id ≠ f₂.rtId) →
      ∃ (pair₂ : TokenPair) (s₂ : St),
        refreshTokens hash cfg pair.refreshToken f₂ now₂ s' = (.ok pair₂, s₂)

/-! ## Concrete instances used in closed theorems

`exHash` and `exBcrypt` are concrete stand-ins for the SHA-256 / bcrypt
parameters (the theorems below hold for every such function; closed
corollaries need a computable instantiation). -/

def exHash : String → String := fun t => "#" ++ t

def exBcrypt : String → String := fun p => "b:" ++ p

def exCfg : Cfg := ⟨"k", 900, 604800⟩

def exDecode : String → Option JwtClaims := fun t =>
  if t = "tok1" then some ⟨"u1", true, 1000, "k"⟩
  else if t = "tok2" then some ⟨"u2", false, 1000, "k"⟩
  else none

def exGuest : User := ⟨"u1", none, none, none, true⟩

def sEmpty : St := ⟨[], []⟩

def sGuest : St := ⟨[exGuest], []⟩

def sGuestTok : St := ⟨[exGuest], [⟨"rt1", "#raw1", "u1", 1000⟩]⟩

def sGuestPlus : St := ⟨[exGuest, ⟨"u9", none, none, none, true⟩], []⟩

/-! ## Helper lemmas -/

theorem find?_eq_some_of_unique {α : Type _} (p : α → Bool) (l : List α) (a : α)
    (ha : a ∈ l) (hpa : p a = true) (huni : ∀ b ∈ l, p b = true → b = a) :
    l.find? p = some a := by
  induction l with
  | nil => cases ha
  | cons x xs ih =>
    by_cases hpx : p x = true
    · have hx : x = a := huni x (List.mem_cons_self x xs) hpx
      subst hx
      exact List.find?_cons_of_pos _ hpx
    · rw [List.find?_cons_of_neg _ hpx]
      rcases List.mem_cons.mp ha with hx | hx
      · exact absurd (hx ▸ hpa) hpx
      · exact ih hx (fun b hb hpb => huni b (List.mem_cons_of_mem _ hb) hpb)

theorem generateTokens_ok (hash : String → String) (cfg : Cfg) (userId : String)
    (isGuest : Bool) (f : Fresh) (now : Nat) (s : St)
    (hfresh : ∀ r ∈ s.refreshTokens, r.tokenHash ≠ hash f.refreshValue ∧ r.id ≠ f.rtId) :
    generateTokens hash cfg userId isGuest f now s =
      (.ok ⟨jwtSign userId isGuest cfg.accessSecret cfg.accessExpiresSec now, f.refreshValue⟩,
       { s with refreshTokens :=
           s.refreshTokens ++ [⟨f.rtId, hash f.refreshValue, userId, now + cfg.refreshExpiresSec * 1000⟩] }) := by
  unfold generateTokens
  have hany : (s.refreshTokens.any fun r => r.tokenHash == hash f.refreshValue || r.id == f.rtId) = false := by
    simp only [List.any_eq_false, Bool.or_eq_true, beq_iff_eq, not_or]
    exact hfresh
  simp [hany]

theorem register_fresh_ok (hash bcryptHash : String → String) (cfg : Cfg)
    (email password : String) (dn : Option String) (freshUserId : String)
    (f : Fresh) (now : Nat) (s : St)
    (hemail : findByEmail s.users email = none)
    (hid : findById s.users freshUserId = none)
    (hfresh : ∀ r ∈ s.refreshTokens, r.tokenHash ≠ hash f.refreshValue ∧ r.id ≠ f.rtId) :
    register hash bcryptHash cfg email password dn none freshUserId f now s =
      (.ok ⟨jwtSign freshUserId false cfg.accessSecret cfg.accessExpiresSec now, f.refreshValue⟩,
       { users := s.users ++ [⟨freshUserId, some email, some (bcryptHash password), dn, false⟩],
         refreshTokens :=
           s.refreshTokens.filter (fun r => r.userId != freshUserId) ++
             [⟨f.rtId, hash f.refreshValue, freshUserId, now + cfg.refreshExpiresSec * 1000⟩] }) := by
  have hfresh' : ∀ r ∈ s.refreshTokens.filter (fun r => r.userId != freshUserId),
      r.tokenHash ≠ hash f.refreshValue ∧ r.id ≠ f.rtId := by
    intro r hr
    exact hfresh r (List.mem_of_mem_filter hr)
  unfold register createRegistered
  rw [hemail, hid]
  simp only [Option.isSome_none, Bool.false_eq_true, if_false]
  rw [generateTokens_ok _ _ _ _ _ _ _ hfresh']

/-- C5 (amended): when the supplied `guestAccountId` is truthy (a
non-empty string) but does not resolve to any account, `register` does
not fall back to creating a fresh account: `upgradeGuest` throws
`BadRequest` ("User is not a guest") and the state is unchanged.  An
empty-string `guestAccountId` is falsy, so `if (guestUserId)` treats it
exactly like an absent one and takes the fresh-creation path. -/
theorem register_unresolved_guest_fails
    (hash bcryptHash : String → String) (cfg : Cfg) (email password : String)
    (dn : Option String) (gid freshUserId : String) (f : Fresh) (now : Nat) (s : St) :
    (gid ≠ "" → findById s.users gid = none →
      register hash bcryptHash cfg email password dn (some gid) freshUserId f now s =
        (.error (.badRequest "User is not a guest"), s)) ∧
    register hash bcryptHash cfg email password dn (some "") freshUserId f now s =
      register hash bcryptHash cfg email password dn none freshUserId f now s := by
  constructor
  · intro hne hgid
    unfold register upgradeGuest
    simp [hne, hgid]
  · unfold register
    try dsimp only
    rw [if_pos rfl]

theorem register_unresolved_guest_fails_witness :
    ("ghost" ≠ "" ∧ findById sEmpty.users "ghost" = none ∧
      register exHash exBcrypt exCfg "a@b.com" "password123" none (some "ghost") "uX"
          ⟨"raw4", "rt4"⟩ 400 sEmpty =
        (.error (.badRequest "User is not a guest"), sEmpty)) ∧
    register exHash exBcrypt exCfg "a@b.com" "password123" none (some "") "uX"
        ⟨"raw4", "rt4"⟩ 400 sEmpty =
      register exHash exBcrypt exCfg "a@b.com" "password123" none none "uX"
        ⟨"raw4", "rt4"⟩ 400 sEmpty :=
  ⟨⟨by decide, by decide,
    (register_unresolved_guest_fails exHash exBcrypt exCfg "a@b.com" "password123" none
      "ghost" "uX" ⟨"raw4", "rt4"⟩ 400 sEmpty).1 (by decide) (by decide)⟩,
   (register_unresolved_guest_fails exHash exBcrypt exCfg "a@b.com" "password123" none
      "" "uX" ⟨"raw4", "rt4"⟩ 400 sEmpty).2⟩

/-- C5 (counterexample to the claim as stated): a register call whose
supplied guest id resolves to no account does *not* succeed with a fresh
registered account — it fails `BadRequest` and creates nothing. -/
theorem register_unresolved_guest_cex :
    ¬ ∃ (pair : TokenPair) (s' : St),
        register exHash exBcrypt exCfg "a@b.com" "password123" none (some "ghost") "uX"
          ⟨"raw4", "rt4"⟩ 400 sEmpty = (.ok pair, s') := by
  rintro ⟨pair, s', h⟩
  have h2 : (Except.error (Err.badRequest "User is not a guest"), sEmpty) =
      ((Except.ok pair : Except Err TokenPair), s') := by
    rw [← h]; rfl
  simp at h2

/-- C6 (amended): the Session Manager's `register` performs *no*
password-strength check of its own: a password shorter than 8 characters
sails through the core whenever the remaining inputs are valid, creating
the account and its refresh-token record.  The minimum-8-characters
policy lives only in the caller-facing validation layer (`RegisterDto`). -/
theorem register_no_core_password_policy
    (hash bcryptHash : String → String) (cfg : Cfg) (email password : String)
    (dn : Option String) (freshUserId : String) (f : Fresh) (now : Nat) (s : St)
    (hlen : password.length < 8)
    (hemail : findByEmail s.users email = none)
    (hid : findById s.users freshUserId = none)
    (hfresh : ∀ r ∈ s.refreshTokens, r.tokenHash ≠ hash f.refreshValue ∧ r.id ≠ f.rtId) :
    register hash bcryptHash cfg email password dn none freshUserId f now s =
      (.ok ⟨jwtSign freshUserId false cfg.accessSecret cfg.accessExpiresSec now, f.refreshValue⟩,
       { users := s.users ++ [⟨freshUserId, some email, some (bcryptHash password), dn, false⟩],
         refreshTokens :=
           s.refreshTokens.filter (fun r => r.userId != freshUserId) ++
             [⟨f.rtId, hash f.refreshValue, freshUserId, now + cfg.refreshExpiresSec * 1000⟩] }) :=
  register_fresh_ok hash bcryptHash cfg email password dn freshUserId f now s hemail hid hfresh

theorem register_no_core_password_policy_witness :
    "short".length < 8 ∧
    register exHash exBcrypt exCfg "a@b.com" "short" none none "u2" ⟨"raw5", "rt5"⟩ 500 sEmpty =
      (.ok ⟨jwtSign "u2" false exCfg.accessSecret exCfg.accessExpiresSec 500, "raw5"⟩,
       { users := [⟨"u2", some "a@b.com", some (exBcrypt "short"), none, false⟩],
         refreshTokens := [⟨"rt5", exHash "raw5", "u2", 500 + exCfg.refreshExpiresSec * 1000⟩] }) :=
  ⟨by decide,
   register_no_core_password_policy exHash exBcrypt exCfg "a@b.com" "short" none "u2"
     ⟨"raw5", "rt5"⟩ 500 sEmpty (by decide) (by decide) (by decide) (by decide)⟩

/-- C6 (counterexample to the claim as stated): the core accepts the
5-character password "short" — the call succeeds, an account and a
refresh-token record are created. -/
theorem register_short_password_cex :
    "short".length < 8 ∧
    register exHash exBcrypt exCfg "a@b.com" "short" none none "u2" ⟨"raw5", "rt5"⟩ 500 sEmpty =
      (.ok ⟨⟨"u2", false, 1400, "k"⟩, "raw5"⟩,
       ⟨[⟨"u2", some "a@b.com", some "b:short", none, false⟩],
        [⟨"rt5", "#raw5", "u2", 604800500⟩]⟩) :=
  ⟨by decide, by decide⟩

/-- C4 (counterexample to the claim as stated): the get-current-identity
operation is *not* independent of the persistent stores — the same valid
access token verifies when its subject account exists and fails
`Unauthorized` when the Identity Store does not contain it
(`JwtStrategy.validate` looks the subject up in the database). -/
theorem get_current_identity_consults_store_cex :
    getCurrentIdentity exDecode "tok1" "k" 100 sGuest ≠
      getCurrentIdentity exDecode "tok1" "k" 100 sEmpty := by
  decide

/-- C4 (amended): signature/expiry verification itself is storage-free,
but `JwtStrategy.validate` re-reads the subject account, so the result
of get-current-identity depends on the persistent stores exactly through
`findById` of the token's subject: any two store states that agree there
yield the same result. -/
theorem get_current_identity_subject_dependence
    (decode : String → Option JwtClaims) (token secret : String) (now : Nat)
    (s₁ s₂ : St)
    (h : ∀ p : JwtPayload, jwtVerify decode token secret now = .ok p →
      findById s₁.users p.sub = findById s₂.users p.sub) :
    getCurrentIdentity decode token secret now s₁ =
      getCurrentIdentity decode token secret now s₂ := by
  unfold getCurrentIdentity jwtStrategyValidate
  cases hv : jwtVerify decode token secret now with
  | error e => rfl
  | ok p =>
    try dsimp only
    rw [h p hv]

theorem get_current_identity_subject_dependence_witness :
    getCurrentIdentity exDecode "tok1" "k" 100 sGuest =
      getCurrentIdentity exDecode "tok1" "k" 100 sGuestPlus :=
  get_current_identity_subject_dependence exDecode "tok1" "k" 100 sGuest sGuestPlus
    (by
      intro p hp
      have hv : jwtVerify exDecode "tok1" "k" 100 = .ok ⟨"u1", true⟩ := by decide
      rw [hv] at hp
      injection hp with hp
      subst hp
      decide)

/-- C3: presenting a refresh token whose persisted expiry is in the past
fails `Unauthorized` ("Refresh token expired") and deletes the record;
presenting the same raw value again fails `Unauthorized` again, now via
the not-found path ("Invalid refresh token"), with the state unchanged.
The uniqueness hypothesis mirrors the unique index on
`RefreshToken.tokenHash`. -/
theorem refresh_expiry_enforcement
    (hash : String → String) (cfg : Cfg) (raw : String) (f : Fresh) (now : Nat)
    (s : St) (r : RefreshTokenRec)
    (hmem : r ∈ s.refreshTokens)
    (hraw : r.tokenHash = hash raw)
    (huniq : ∀ r' ∈ s.refreshTokens, r'.tokenHash = hash raw → r' = r)
    (hexp : r.expiresAt < now) :
    refreshTokens hash cfg raw f now s =
      (.error (.unauthorized "Refresh token expired"),
       { s with refreshTokens := s.refreshTokens.filter (fun r' => r'.id != r.id) }) ∧
    ∀ (f₂ : Fresh) (now₂ : Nat),
      refreshTokens hash cfg raw f₂ now₂
          { s with refreshTokens := s.refreshTokens.filter (fun r' => r'.id != r.id) } =
        (.error (.unauthorized "Invalid refresh token"),
         { s with refreshTokens := s.refreshTokens.filter (fun r' => r'.id != r.id) }) := by
  have hfind : s.refreshTokens.find? (fun r' => r'.tokenHash == hash raw) = some r :=
    find?_eq_some_of_unique _ _ _ hmem (by simp [hraw])
      (fun b hb hpb => huniq b hb (by simpa using hpb))
  constructor
  · unfold refreshTokens
    try dsimp only
    rw [hfind]
    try dsimp only
    rw [if_pos hexp]
  · intro f₂ now₂
    have hnone : List.find? (fun r' => r'.tokenHash == hash raw)
        (s.refreshTokens.filter (fun r' => r'.id != r.id)) = none := by
      rw [List.find?_eq_none]
      intro x hx
      simp only [beq_iff_eq]
      intro hxh
      have hxr : x = r := huniq x (List.mem_of_mem_filter hx) hxh
      have hxid := List.of_mem_filter hx
      rw [hxr] at hxid
      simp at hxid
    unfold refreshTokens
    try dsimp only
    rw [hnone]

theorem refresh_expiry_enforcement_witness :
    refreshTokens exHash exCfg "raw1" ⟨"raw2", "rt2"⟩ 5000 sGuestTok =
      (.error (.unauthorized "Refresh token expired"),
       { sGuestTok with
           refreshTokens := sGuestTok.refreshTokens.filter (fun r' => r'.id != "rt1") }) ∧
    refreshTokens exHash exCfg "raw1" ⟨"raw3", "rt3"⟩ 6000
        { sGuestTok with
            refreshTokens := sGuestTok.refreshTokens.filter (fun r' => r'.id != "rt1") } =
      (.error (.unauthorized "Invalid refresh token"),
       { sGuestTok with
           refreshTokens := sGuestTok.refreshTokens.filter (fun r' => r'.id != "rt1") }) := by
  have h := refresh_expiry_enforcement exHash exCfg "raw1" ⟨"raw2", "rt2"⟩ 5000 sGuestTok
    ⟨"rt1", "#raw1", "u1", 1000⟩ (by decide) (by decide) (by decide) (by decide)
  exact ⟨h.1, h.2 ⟨"raw3", "rt3"⟩ 6000⟩

/-- C1: a persisted, unexpired refresh token succeeds on its first
`refresh` call — deleting its record and minting/persisting a new pair
for the owning account's current state — and every subsequent `refresh`
call with the same raw value fails `Unauthorized` with the state
unchanged.  The uniqueness hypotheses mirror the unique indexes on
`RefreshToken.tokenHash`/`id` and the collision-freeness of the fresh
random token. -/
theorem single_use_refresh
    (hash : String → String) (cfg : Cfg) (raw : String) (f : Fresh) (now : Nat)
    (s : St) (r : RefreshTokenRec) (u : User)
    (hmem : r ∈ s.refreshTokens)
    (hraw : r.tokenHash = hash raw)
    (huniq : ∀ r' ∈ s.refreshTokens, r'.tokenHash = hash raw → r' = r)
    (hexp : ¬ r.expiresAt < now)
    (huser : findById s.users r.userId = some u)
    (hfresh : ∀ r' ∈ s.refreshTokens, r'.tokenHash ≠ hash f.refreshValue ∧ r'.id ≠ f.rtId) :
    refreshTokens hash cfg raw f now s =
      (.ok ⟨jwtSign u.id u.isGuest cfg.accessSecret cfg.accessExpiresSec now, f.refreshValue⟩,
       { s with refreshTokens :=
           s.refreshTokens.filter (fun r' => r'.id != r.id) ++
             [⟨f.rtId, hash f.refreshValue, u.id, now + cfg.refreshExpiresSec * 1000⟩] }) ∧
    ∀ (f₂ : Fresh) (now₂ : Nat),
      refreshTokens hash cfg raw f₂ now₂
          { s with refreshTokens :=
              s.refreshTokens.filter (fun r' => r'.id != r.id) ++
                [⟨f.rtId, hash f.refreshValue, u.id, now + cfg.refreshExpiresSec * 1000⟩] } =
        (.error (.unauthorized "Invalid refresh token"),
         { s with refreshTokens :=
             s.refreshTokens.filter (fun r' => r'.id != r.id) ++
               [⟨f.rtId, hash f.refreshValue, u.id, now + cfg.refreshExpiresSec * 1000⟩] }) := by
  have hfind : s.refreshTokens.find? (fun r' => r'.tokenHash == hash raw) = some r :=
    find?_eq_some_of_unique _ _ _ hmem (by simp [hraw])
      (fun b hb hpb => huniq b hb (by simpa using hpb))
  have hfresh' : ∀ r' ∈ s.refreshTokens.filter (fun r' => r'.id != r.id),
      r'.tokenHash ≠ hash f.refreshValue ∧ r'.id ≠ f.rtId := by
    intro r' hr'
    exact hfresh r' (List.mem_of_mem_filter hr')
  constructor
  · unfold refreshTokens
    try dsimp only
    rw [hfind]
    try dsimp only
    rw [if_neg hexp]
    try dsimp only
    rw [huser]
    try dsimp only
    rw [generateTokens_ok _ _ _ _ _ _ _ hfresh']
  · intro f₂ now₂
    have hnone : List.find? (fun r' => r'.tokenHash == hash raw)
        (s.refreshTokens.filter (fun r' => r'.id != r.id) ++
          [(⟨f.rtId, hash f.refreshValue, u.id, now + cfg.refreshExpiresSec * 1000⟩ : RefreshTokenRec)]) = none := by
      rw [List.find?_eq_none]
      intro x hx
      simp only [beq_iff_eq]
      intro hxh
      rcases List.mem_append.mp hx with hx | hx
      · have hxr : x = r := huniq x (List.mem_of_mem_filter hx) hxh
        have hxid := List.of_mem_filter hx
        rw [hxr] at hxid
        simp at hxid
      · have hx1 : x = ⟨f.rtId, hash f.refreshValue, u.id, now + cfg.refreshExpiresSec * 1000⟩ := by
          simpa using hx
        have : hash f.refreshValue = hash raw := by rw [← hxh, hx1]
        exact (hfresh r hmem).1 (by rw [hraw, this])
    unfold refreshTokens
    try dsimp only
    rw [hnone]

theorem single_use_refresh_witness :
    refreshTokens exHash exCfg "raw1" ⟨"raw2", "rt2"⟩ 500 sGuestTok =
      (.ok ⟨jwtSign "u1" true exCfg.accessSecret exCfg.accessExpiresSec 500, "raw2"⟩,
       { sGuestTok with refreshTokens :=
           sGuestTok.refreshTokens.filter (fun r' => r'.id != "rt1") ++
             [⟨"rt2", exHash "raw2", "u1", 500 + exCfg.refreshExpiresSec * 1000⟩] }) ∧
    refreshTokens exHash exCfg "raw1" ⟨"raw3", "rt3"⟩ 600
        { sGuestTok with refreshTokens :=
            sGuestTok.refreshTokens.filter (fun r' => r'.id != "rt1") ++
              [⟨"rt2", exHash "raw2", "u1", 500 + exCfg.refreshExpiresSec * 1000⟩] } =
      (.error (.unauthorized "Invalid refresh token"),
       { sGuestTok with refreshTokens :=
           sGuestTok.refreshTokens.filter (fun r' => r'.id != "rt1") ++
             [⟨"rt2", exHash "raw2", "u1", 500 + exCfg.refreshExpiresSec * 1000⟩] }) := by
  have h := single_use_refresh exHash exCfg "raw1" ⟨"raw2", "rt2"⟩ 500 sGuestTok
    ⟨"rt1", "#raw1", "u1", 1000⟩ exGuest (by decide) (by decide) (by decide) (by decide)
    (by decide) (by decide)
  exact ⟨h.1, h.2 ⟨"raw3", "rt3"⟩ 600⟩

/-- C7: with a fresh email, a first register call (no guest upgrade)
succeeds; a second register call with the same email then fails
`Conflict` ("Email already in use") and returns the state it was given
unchanged — no second account, no other mutation. -/
theorem email_uniqueness_conflict
    (hash bcryptHash : String → String) (cfg : Cfg) (email p₁ p₂ : String)
    (dn₁ dn₂ : Option String) (id₁ id₂ : String) (f₁ f₂ : Fresh)
    (now₁ now₂ : Nat) (s : St)
    (hemail : findByEmail s.users email = none)
    (hid : findById s.users id₁ = none)
    (hfresh : ∀ r ∈ s.refreshTokens, r.tokenHash ≠ hash f₁.refreshValue ∧ r.id ≠ f₁.rtId) :
    ∃ (pair₁ : TokenPair) (s₁ : St),
      register hash bcryptHash cfg email p₁ dn₁ none id₁ f₁ now₁ s = (.ok pair₁, s₁) ∧
      register hash bcryptHash cfg email p₂ dn₂ none id₂ f₂ now₂ s₁ =
        (.error (.conflict "Email already in use"), s₁) := by
  refine ⟨_, _, register_fresh_ok hash bcryptHash cfg email p₁ dn₁ id₁ f₁ now₁ s hemail hid hfresh, ?_⟩
  have hfind : findByEmail
      (s.users ++ [(⟨id₁, some email, some (bcryptHash p₁), dn₁, false⟩ : User)]) email =
      some ⟨id₁, some email, some (bcryptHash p₁), dn₁, false⟩ := by
    unfold findByEmail at hemail ⊢
    rw [List.find?_append, hemail]
    simp
  unfold register createRegistered
  rw [hfind]

theorem email_uniqueness_conflict_witness :
    ∃ (pair₁ : TokenPair) (s₁ : St),
      register exHash exBcrypt exCfg "a@b.com" "password123" none none "u2" ⟨"raw5", "rt5"⟩ 500 sEmpty =
        (.ok pair₁, s₁) ∧
      register exHash exBcrypt exCfg "a@b.com" "password456" none none "u3" ⟨"raw6", "rt6"⟩ 600 s₁ =
        (.error (.conflict "Email already in use"), s₁) :=
  email_uniqueness_conflict exHash exBcrypt exCfg "a@b.com" "password123" "password456"
    none none "u2" "u3" ⟨"raw5", "rt5"⟩ ⟨"raw6", "rt6"⟩ 500 600 sEmpty
    (by decide) (by decide) (by decide)

theorem usersOk_of_eq (s₁ s₂ : St) (hu : s₂.users = s₁.users) (h : usersOk s₁) :
    usersOk s₂ := fun u hm => h u (hu ▸ hm)

theorem generateTokens_users (hash : String → String) (cfg : Cfg) (uid : String)
    (g : Bool) (f : Fresh) (now : Nat) (s : St) :
    ((generateTokens hash cfg uid g f now s).2).users = s.users := by
  unfold generateTokens
  try dsimp only
  split <;> rfl

theorem createGuest_usersOk (s : St) (fid : String) (h : usersOk s) :
    usersOk (createGuest s fid).2 := by
  unfold createGuest
  split
  · exact h
  · intro u hu
    rcases List.mem_append.mp hu with hu | hu
    · exact h u hu
    · have : u = ⟨fid, none, none, none, true⟩ := by simpa using hu
      subst this
      exact ⟨fun _ => ⟨rfl, rfl⟩, fun hg => by simp at hg⟩

theorem createRegistered_usersOk (s : St) (fid email ph : String) (dn : Option String)
    (h : usersOk s) : usersOk (createRegistered s fid email ph dn).2 := by
  unfold createRegistered
  split
  · exact h
  · split
    · exact h
    · intro u hu
      rcases List.mem_append.mp hu with hu | hu
      · exact h u hu
      · have : u = ⟨fid, some email, some ph, dn, false⟩ := by simpa using hu
        subst this
        exact ⟨fun hg => by simp at hg, fun _ => ⟨Option.some_ne_none _, Option.some_ne_none _⟩⟩

theorem upgradeGuest_usersOk (s : St) (uid email ph : String) (dn : Option String)
    (h : usersOk s) : usersOk (upgradeGuest s uid email ph dn).2 := by
  unfold upgradeGuest
  split
  · exact h
  · split
    · exact h
    · split
      · exact h
      · intro u hu
        rcases List.mem_map.mp hu with ⟨v, hv, hvu⟩
        by_cases hid : (v.id == uid) = true
        · rw [if_pos hid] at hvu
          subst hvu
          exact ⟨fun hg => by simp at hg, fun _ => ⟨Option.some_ne_none _, Option.some_ne_none _⟩⟩
        · rw [if_neg hid] at hvu
          subst hvu
          exact h v hv

theorem authCreateGuest_usersOk (hash : String → String) (cfg : Cfg)
    (fid : String) (f : Fresh) (now : Nat) (s : St) (h : usersOk s) :
    usersOk (authCreateGuest hash cfg fid f now s).2 := by
  have h1 := createGuest_usersOk s fid h
  unfold authCreateGuest
  split
  · next e s' heq => rw [heq] at h1; exact h1
  · next u s' heq =>
    rw [heq] at h1
    exact usersOk_of_eq _ _ (generateTokens_users hash cfg u.id true f now s') h1

theorem register_usersOk (hash bcryptHash : String → String) (cfg : Cfg)
    (email password : String) (dn : Option String) (gid : Option String)
    (fid : String) (f : Fresh) (now : Nat) (s : St) (h : usersOk s) :
    usersOk (register hash bcryptHash cfg email password dn gid fid f now s).2 := by
  have h1 : usersOk (match gid with
      | some g =>
        if g = "" then createRegistered s fid email (bcryptHash password) dn
        else upgradeGuest s g email (bcryptHash password) dn
      | none => createRegistered s fid email (bcryptHash password) dn).2 := by
    cases gid with
    | some g =>
      dsimp only
      by_cases hg : g = ""
      · rw [if_pos hg]
        exact createRegistered_usersOk s fid email (bcryptHash password) dn h
      · rw [if_neg hg]
        exact upgradeGuest_usersOk s g email (bcryptHash password) dn h
    | none => exact createRegistered_usersOk s fid email (bcryptHash password) dn h
  unfold register
  try dsimp only
  split
  · next e s' heq => rw [heq] at h1; exact h1
  · next u s' heq =>
    rw [heq] at h1
    refine usersOk_of_eq _ _ ?_ h1
    rw [generateTokens_users]

theorem login_usersOk (hash : String → String) (cfg : Cfg) (uid : String)
    (f : Fresh) (now : Nat) (s : St) (h : usersOk s) :
    usersOk (login hash cfg uid f now s).2 := by
  unfold login
  split
  · exact h
  · next u heq =>
    exact usersOk_of_eq _ _ (generateTokens_users hash cfg u.id u.isGuest f now s) h

theorem refreshTokens_usersOk (hash : String → String) (cfg : Cfg) (raw : String)
    (f : Fresh) (now : Nat) (s : St) (h : usersOk s) :
    usersOk (refreshTokens hash cfg raw f now s).2 := by
  unfold refreshTokens
  try dsimp only
  split
  · exact h
  · split
    · exact usersOk_of_eq _ _ rfl h
    · split
      · exact usersOk_of_eq _ _ rfl h
      · next u heq =>
        refine usersOk_of_eq _ _ ?_ h
        rw [generateTokens_users]

theorem logout_usersOk (hash : String → String) (raw : Option String) (s : St)
    (h : usersOk s) : usersOk (logout hash raw s) := by
  unfold logout
  split
  · exact h
  · split
    · exact h
    · exact usersOk_of_eq _ _ rfl h

/-- C8: the account-shape invariant (`isGuest` implies no email and no
credential hash; registered implies both present) holds after every
operation of the core — the three Identity Store mutations and the five
Session Manager operations — whenever it held before. -/
theorem account_shape_invariant
    (hash bcryptHash : String → String) (cfg : Cfg) (s s' : St)
    (hinv : usersOk s) (hstep : CoreStep hash bcryptHash cfg s s') :
    usersOk s' := by
  cases hstep with
  | createGuestUser fid => exact createGuest_usersOk s fid hinv
  | createRegisteredUser fid email ph dn => exact createRegistered_usersOk s fid email ph dn hinv
  | upgradeGuestUser uid email ph dn => exact upgradeGuest_usersOk s uid email ph dn hinv
  | guestSession fid f now => exact authCreateGuest_usersOk hash cfg fid f now s hinv
  | registerSession email password dn gid fid f now =>
    exact register_usersOk hash bcryptHash cfg email password dn gid fid f now s hinv
  | loginSession uid f now => exact login_usersOk hash cfg uid f now s hinv
  | refreshSession raw f now => exact refreshTokens_usersOk hash cfg raw f now s hinv
  | logoutSession raw => exact logout_usersOk hash raw s hinv

theorem account_shape_invariant_witness :
    usersOk sEmpty ∧ usersOk (authCreateGuest exHash exCfg "u1" ⟨"raw1", "rt1"⟩ 100 sEmpty).2 :=
  ⟨by decide,
   account_shape_invariant exHash exBcrypt exCfg sEmpty
     (authCreateGuest exHash exCfg "u1" ⟨"raw1", "rt1"⟩ 100 sEmpty).2 (by decide)
     (CoreStep.guestSession sEmpty "u1" ⟨"raw1", "rt1"⟩ 100)⟩

theorem upgradeGuest_rt (s : St) (uid email ph : String) (dn : Option String) :
    ((upgradeGuest s uid email ph dn).2).refreshTokens = s.refreshTokens := by
  unfold upgradeGuest
  split
  · rfl
  · split
    · rfl
    · split <;> rfl

theorem createRegistered_rt (s : St) (fid email ph : String) (dn : Option String) :
    ((createRegistered s fid email ph dn).2).refreshTokens = s.refreshTokens := by
  unfold createRegistered
  split
  · rfl
  · split <;> rfl

theorem generateTokens_ok_inv (hash : String → String) (cfg : Cfg) (uid : String)
    (g : Bool) (f : Fresh) (now : Nat) (s : St) (pair : TokenPair) (s' : St)
    (h : generateTokens hash cfg uid g f now s = (.ok pair, s')) :
    pair = ⟨jwtSign uid g cfg.accessSecret cfg.accessExpiresSec now, f.refreshValue⟩ ∧
    s' = { s with refreshTokens :=
        s.refreshTokens ++ [⟨f.rtId, hash f.refreshValue, uid, now + cfg.refreshExpiresSec * 1000⟩] } ∧
    ∀ r ∈ s.refreshTokens, r.tokenHash ≠ hash f.refreshValue ∧ r.id ≠ f.rtId := by
  unfold generateTokens at h
  by_cases hany : (s.refreshTokens.any fun r => r.tokenHash == hash f.refreshValue || r.id == f.rtId) = true
  · rw [if_pos hany] at h
    simp at h
  · rw [if_neg hany] at h
    have hfr : ∀ r ∈ s.refreshTokens, r.tokenHash ≠ hash f.refreshValue ∧ r.id ≠ f.rtId := by
      have := Bool.of_not_eq_true hany
      simp only [List.any_eq_false, Bool.or_eq_true, beq_iff_eq, not_or] at this
      exact this
    injection h with h1 h2
    injection h1 with h1
    exact ⟨h1.symm, h2.symm, hfr⟩

theorem register_ok_inv (hash bcryptHash : String → String) (cfg : Cfg)
    (email password : String) (dn : Option String) (gid : Option String)
    (fid : String) (f : Fresh) (now : Nat) (s : St) (pair : TokenPair) (s' : St)
    (h : register hash bcryptHash cfg email password dn gid fid f now s = (.ok pair, s')) :
    ∃ uid : String,
      pair.accessToken.sub = uid ∧
      pair.refreshToken = f.refreshValue ∧
      s'.refreshTokens =
        s.refreshTokens.filter (fun r => r.userId != uid) ++
          [⟨f.rtId, hash f.refreshValue, uid, now + cfg.refreshExpiresSec * 1000⟩] := by
  unfold register at h
  try dsimp only at h
  split at h
  · simp at h
  · next user s₁ heq =>
    have hrt : s₁.refreshTokens = s.refreshTokens := by
      cases gid with
      | some g =>
        dsimp only at heq
        by_cases hg : g = ""
        · rw [if_pos hg] at heq
          have hx := createRegistered_rt s fid email (bcryptHash password) dn
          rw [heq] at hx
          exact hx
        · rw [if_neg hg] at heq
          have hx := upgradeGuest_rt s g email (bcryptHash password) dn
          rw [heq] at hx
          exact hx
      | none =>
        have hx := createRegistered_rt s fid email (bcryptHash password) dn
        dsimp only at heq
        rw [heq] at hx
        exact hx
    obtain ⟨hpair, hs', _⟩ := generateTokens_ok_inv _ _ _ _ _ _ _ _ _ h
    refine ⟨user.id, by rw [hpair]; rfl, by rw [hpair], ?_⟩
    rw [hs']
    show s₁.refreshTokens.filter _ ++ _ = _
    rw [hrt]

/-- C2: after any successful `register` (fresh creation or guest
upgrade), every refresh-token record that existed for the resulting
account's identifier beforehand is absent from the store, and a refresh
call with any of their raw values fails `Unauthorized` leaving the state
unchanged.  Uniqueness/collision hypotheses mirror the unique index on
`tokenHash` and the freshness of the newly drawn random token. -/
theorem register_invalidates_prior_sessions
    (hash bcryptHash : String → String) (cfg : Cfg) (email password : String)
    (dn : Option String) (gid : Option String) (fid : String) (f : Fresh)
    (now : Nat) (s : St) (pair : TokenPair) (s' : St)
    (hok : register hash bcryptHash cfg email password dn gid fid f now s = (.ok pair, s'))
    (r0 : RefreshTokenRec) (hr0 : r0 ∈ s.refreshTokens)
    (hown : r0.userId = pair.accessToken.sub)
    (huniq : ∀ r' ∈ s.refreshTokens, r'.tokenHash = r0.tokenHash → r' = r0)
    (hcoll : hash f.refreshValue ≠ r0.tokenHash) :
    r0 ∉ s'.refreshTokens ∧
    ∀ (raw : String) (f₂ : Fresh) (now₂ : Nat), hash raw = r0.tokenHash →
      refreshTokens hash cfg raw f₂ now₂ s' =
        (.error (.unauthorized "Invalid refresh token"), s') := by
  obtain ⟨uid, hsub, _, hrt⟩ :=
    register_ok_inv hash bcryptHash cfg email password dn gid fid f now s pair s' hok
  have huid : r0.userId = uid := by rw [hown, hsub]
  constructor
  · rw [hrt]
    intro hmem
    rcases List.mem_append.mp hmem with hmem | hmem
    · have hne := List.of_mem_filter hmem
      rw [huid] at hne
      simp at hne
    · have hx1 : r0 = ⟨f.rtId, hash f.refreshValue, uid, now + cfg.refreshExpiresSec * 1000⟩ := by
        simpa using hmem
      apply hcoll
      rw [hx1]
  · intro raw f₂ now₂ hraw
    have hnone : List.find? (fun r' => r'.tokenHash == hash raw) s'.refreshTokens = none := by
      rw [hrt, List.find?_eq_none]
      intro x hx
      simp only [beq_iff_eq]
      intro hxh
      rcases List.mem_append.mp hx with hx | hx
      · have hxr : x = r0 := huniq x (List.mem_of_mem_filter hx) (by rw [hxh, hraw])
        have hne := List.of_mem_filter hx
        rw [hxr, huid] at hne
        simp at hne
      · have hx1 : x = ⟨f.rtId, hash f.refreshValue, uid, now + cfg.refreshExpiresSec * 1000⟩ := by
          simpa using hx
        apply hcoll
        rw [← hraw, ← hxh, hx1]
    unfold refreshTokens
    try dsimp only
    rw [hnone]

theorem register_invalidates_prior_sessions_witness :
    (⟨"rt1", "#raw1", "u1", 1000⟩ : RefreshTokenRec) ∉
        (⟨[⟨"u1", some "a@b.com", some "b:password123", none, false⟩],
          [⟨"rt4", "#raw4", "u1", 604800400⟩]⟩ : St).refreshTokens ∧
    refreshTokens exHash exCfg "raw1" ⟨"raw9", "rt9"⟩ 999
        (⟨[⟨"u1", some "a@b.com", some "b:password123", none, false⟩],
          [⟨"rt4", "#raw4", "u1", 604800400⟩]⟩ : St) =
      (.error (.unauthorized "Invalid refresh token"),
       (⟨[⟨"u1", some "a@b.com", some "b:password123", none, false⟩],
         [⟨"rt4", "#raw4", "u1", 604800400⟩]⟩ : St)) := by
  have h := register_invalidates_prior_sessions exHash exBcrypt exCfg "a@b.com" "password123"
    none (some "u1") "uX" ⟨"raw4", "rt4"⟩ 400 sGuestTok
    ⟨jwtSign "u1" false "k" 900 400, "raw4"⟩
    (⟨[⟨"u1", some "a@b.com", some "b:password123", none, false⟩],
      [⟨"rt4", "#raw4", "u1", 604800400⟩]⟩ : St)
    (by decide) ⟨"rt1", "#raw1", "u1", 1000⟩ (by decide) (by decide) (by decide) (by decide)
  exact ⟨h.1, h.2 "raw1" ⟨"raw9", "rt9"⟩ 999 (by decide)⟩

theorem createGuest_rt (s : St) (fid : String) :
    ((createGuest s fid).2).refreshTokens = s.refreshTokens := by
  unfold createGuest
  split <;> rfl

theorem findById_append_new (l : List User) (u : User)
    (hnone : List.find? (fun x => x.id == u.id) l = none) :
    List.find? (fun x => x.id == u.id) (l ++ [u]) = some u := by
  rw [List.find?_append, hnone]
  simp

theorem findById_map_update (l : List User) (uid : String) (user₀ u' : User)
    (hfind : List.find? (fun x => x.id == uid) l = some user₀) (hid : u'.id = user₀.id) :
    List.find? (fun x => x.id == u'.id) (l.map (fun x => if x.id == uid then u' else x)) = some u' := by
  have hkey : user₀.id = uid := by simpa using List.find?_some hfind
  have hu'uid : u'.id = uid := hid.trans hkey
  induction l with
  | nil => simp at hfind
  | cons y ys ih =>
    by_cases hy : (y.id == uid) = true
    · simp only [List.map_cons, if_pos hy]
      have hself : (u'.id == u'.id) = true := by simp
      simp [List.find?_cons, hself]
    · have hy' : (y.id == uid) = false := by simpa using hy
      have hyu : (y.id == u'.id) = false := by rw [hu'uid]; exact hy'
      simp only [List.find?_cons, hy'] at hfind
      simp only [List.map_cons, if_neg hy]
      simp only [List.find?_cons, hyu]
      exact ih hfind

theorem createGuest_ok_inv (s : St) (fid : String) (u : User) (s₁ : St)
    (h : createGuest s fid = (.ok u, s₁)) :
    u = ⟨fid, none, none, none, true⟩ ∧ s₁ = { s with users := s.users ++ [u] } ∧
      findById s.users fid = none := by
  unfold createGuest at h
  split at h
  · simp at h
  · next hn =>
    injection h with h1 h2
    injection h1 with h1
    refine ⟨h1.symm, by rw [← h2, h1], ?_⟩
    cases ho : findById s.users fid with
    | none => rfl
    | some v => rw [ho] at hn; simp at hn

theorem createRegistered_ok_user (s : St) (fid email ph : String) (dn : Option String)
    (u : User) (s₁ : St) (h : createRegistered s fid email ph dn = (.ok u, s₁)) :
    findById s₁.users u.id = some u := by
  unfold createRegistered at h
  split at h
  · simp at h
  · split at h
    · next hn =>
      simp at h
    · next hn =>
      injection h with h1 h2
      injection h1 with h1
      subst h1
      subst h2
      have hnone : findById s.users fid = none := by
        cases ho : findById s.users fid with
        | none => rfl
        | some v => rw [ho] at hn; simp at hn
      exact findById_append_new s.users _ hnone

theorem upgradeGuest_ok_user (s : St) (uid email ph : String) (dn : Option String)
    (u : User) (s₁ : St) (h : upgradeGuest s uid email ph dn = (.ok u, s₁)) :
    findById s₁.users u.id = some u := by
  unfold upgradeGuest at h
  split at h
  · simp at h
  · next user₀ heq0 =>
    split at h
    · simp at h
    · split at h
      · simp at h
      · injection h with h1 h2
        injection h1 with h1
        subst h1
        subst h2
        unfold findById
        exact findById_map_update s.users uid user₀ _ heq0 rfl

theorem mintPost_of_generateTokens
    (hash : String → String) (cfg : Cfg) (uid : String) (g : Bool) (f : Fresh)
    (now : Nat) (sBase s₀ : St) (pair : TokenPair) (s' : St) (u : User)
    (hgen : generateTokens hash cfg uid g f now sBase = (.ok pair, s'))
    (hsub : ∀ r ∈ sBase.refreshTokens, r ∈ s₀.refreshTokens)
    (hid : ∀ r ∈ s₀.refreshTokens, r.id ≠ f.rtId)
    (huser : findById sBase.users uid = some u) :
    mintPost hash cfg s₀ pair s' := by
  obtain ⟨hpair, hs', hfr⟩ := generateTokens_ok_inv _ _ _ _ _ _ _ _ _ hgen
  have hrfv : pair.refreshToken = f.refreshValue := by rw [hpair]
  refine ⟨⟨f.rtId, hash f.refreshValue, uid, now + cfg.refreshExpiresSec * 1000⟩, ?_, ?_, ?_, ?_, ?_⟩
  · rw [hs']
    exact List.mem_append_right _ (by simp)
  · rw [hrfv]
  · intro hmem
    exact hid _ hmem rfl
  · intro r' hr' hnotin
    rw [hs'] at hr'
    rcases List.mem_append.mp hr' with hr' | hr'
    · exact absurd (hsub r' hr') hnotin
    · simpa using hr'
  · intro f₂ now₂ hnexp hfresh₂
    have hfind : List.find? (fun r' => r'.tokenHash == hash pair.refreshToken) s'.refreshTokens =
        some ⟨f.rtId, hash f.refreshValue, uid, now + cfg.refreshExpiresSec * 1000⟩ := by
      rw [hrfv, hs']
      show List.find? _ (sBase.refreshTokens ++ _) = _
      rw [List.find?_append]
      have hpre : List.find? (fun r' => r'.tokenHash == hash f.refreshValue) sBase.refreshTokens = none := by
        rw [List.find?_eq_none]
        intro x hx
        simpa using (hfr x hx).1
      rw [hpre]
      simp
    have hfresh₂' : ∀ r ∈ s'.refreshTokens.filter (fun r' => r'.id != f.rtId),
        r.tokenHash ≠ hash f₂.refreshValue ∧ r.id ≠ f₂.rtId := by
      intro r hr
      exact hfresh₂ r (List.mem_of_mem_filter hr)
    have husers : s'.users = sBase.users := by rw [hs']
    have huser' : findById s'.users uid = some u := by rw [husers]; exact huser
    unfold refreshTokens
    try dsimp only
    rw [hfind]
    try dsimp only
    rw [if_neg hnexp]
    try dsimp only
    rw [huser']
    try dsimp only
    rw [generateTokens_ok _ _ _ _ _ _ _ hfresh₂']
    exact ⟨_, _, rfl⟩

/-- C9: every successful token-pair mint — by `createGuest` (the auth
operation), `register`, `login` or `refreshTokens` — persists exactly
one new refresh-token record, whose stored `tokenHash` is the
fingerprint (`hashToken`, SHA-256 hex in the code) of the returned raw
refresh token; an immediate refresh with that raw value before its
expiry finds the record and succeeds.  The side hypothesis in each part
says the database-generated row id of the new record is fresh. -/
theorem mint_refresh_round_trip (hash bcryptHash : String → String) (cfg : Cfg) :
    (∀ (fid : String) (f : Fresh) (now : Nat) (s : St) (pair : TokenPair) (s' : St),
      (∀ r ∈ s.refreshTokens, r.id ≠ f.rtId) →
      authCreateGuest hash cfg fid f now s = (.ok pair, s') →
      mintPost hash cfg s pair s') ∧
    (∀ (email password : String) (dn gid : Option String) (fid : String)
        (f : Fresh) (now : Nat) (s : St) (pair : TokenPair) (s' : St),
      (∀ r ∈ s.refreshTokens, r.id ≠ f.rtId) →
      register hash bcryptHash cfg email password dn gid fid f now s = (.ok pair, s') →
      mintPost hash cfg s pair s') ∧
    (∀ (uid : String) (f : Fresh) (now : Nat) (s : St) (pair : TokenPair) (s' : St),
      (∀ r ∈ s.refreshTokens, r.id ≠ f.rtId) →
      login hash cfg uid f now s = (.ok pair, s') →
      mintPost hash cfg s pair s') ∧
    (∀ (raw : String) (f : Fresh) (now : Nat) (s : St) (pair : TokenPair) (s' : St),
      (∀ r ∈ s.refreshTokens, r.id ≠ f.rtId) →
      refreshTokens hash cfg raw f now s = (.ok pair, s') →
      mintPost hash cfg s pair s') := by
  refine ⟨?_, ?_, ?_, ?_⟩
  · -- authCreateGuest
    intro fid f now s pair s' hid h
    unfold authCreateGuest at h
    split at h
    · simp at h
    · next u₀ s₁ heq =>
      obtain ⟨hu₀, hs₁, hnone⟩ := createGuest_ok_inv s fid u₀ s₁ heq
      have hrt : s₁.refreshTokens = s.refreshTokens := by
        have hx := createGuest_rt s fid
        rw [heq] at hx
        exact hx
      have huser : findById s₁.users u₀.id = some u₀ := by
        rw [hs₁]
        show List.find? _ (s.users ++ [u₀]) = _
        apply findById_append_new
        subst hu₀
        exact hnone
      exact mintPost_of_generateTokens hash cfg u₀.id true f now s₁ s pair s' u₀ h
        (fun r hr => hrt ▸ hr) hid huser
  · -- register
    intro email password dn gid fid f now s pair s' hid h
    unfold register at h
    try dsimp only at h
    split at h
    · simp at h
    · next user s₁ heq =>
      have hrt : s₁.refreshTokens = s.refreshTokens := by
        cases gid with
        | some g =>
          dsimp only at heq
          by_cases hg : g = ""
          · rw [if_pos hg] at heq
            have hx := createRegistered_rt s fid email (bcryptHash password) dn
            rw [heq] at hx
            exact hx
          · rw [if_neg hg] at heq
            have hx := upgradeGuest_rt s g email (bcryptHash password) dn
            rw [heq] at hx
            exact hx
        | none =>
          have hx := createRegistered_rt s fid email (bcryptHash password) dn
          dsimp only at heq
          rw [heq] at hx
          exact hx
      have huser : findById s₁.users user.id = some user := by
        cases gid with
        | some g =>
          dsimp only at heq
          by_cases hg : g = ""
          · rw [if_pos hg] at heq
            exact createRegistered_ok_user s fid email (bcryptHash password) dn user s₁ heq
          · rw [if_neg hg] at heq
            exact upgradeGuest_ok_user s g email (bcryptHash password) dn user s₁ heq
        | none =>
          dsimp only at heq
          exact createRegistered_ok_user s fid email (bcryptHash password) dn user s₁ heq
      refine mintPost_of_generateTokens hash cfg user.id false f now
        { users := s₁.users, refreshTokens := s₁.refreshTokens.filter (fun r => r.userId != user.id) }
        s pair s' user h ?_ hid huser
      intro r hr
      exact hrt ▸ List.mem_of_mem_filter hr
  · -- login
    intro uid f now s pair s' hid h
    unfold login at h
    split at h
    · simp at h
    · next user heq =>
      have hkey : user.id = uid := by
        unfold findById at heq
        simpa using List.find?_some heq
      have huser : findById s.users user.id = some user := by rw [hkey]; exact heq
      exact mintPost_of_generateTokens hash cfg user.id user.isGuest f now s s pair s' user h
        (fun r hr => hr) hid huser
  · -- refreshTokens
    intro raw f now s pair s' hid h
    unfold refreshTokens at h
    try dsimp only at h
    split at h
    · simp at h
    · next stored hfound =>
      split at h
      · simp at h
      · split at h
        · simp at h
        · next user heq =>
          have hkey : user.id = stored.userId := by
            unfold findById at heq
            simpa using List.find?_some heq
          have huser : findById s.users user.id = some user := by
            rw [hkey]
            exact heq
          refine mintPost_of_generateTokens hash cfg user.id user.isGuest f now
            { users := s.users, refreshTokens := s.refreshTokens.filter (fun r => r.id != stored.id) }
            s pair s' user h ?_ hid huser
          intro r hr
          exact List.mem_of_mem_filter hr

theorem mint_refresh_round_trip_witness :
    mintPost exHash exCfg sEmpty
      ⟨jwtSign "u1" true exCfg.accessSecret exCfg.accessExpiresSec 100, "raw1"⟩
      ⟨[⟨"u1", none, none, none, true⟩], [⟨"rt1", exHash "raw1", "u1", 100 + exCfg.refreshExpiresSec * 1000⟩]⟩ :=
  (mint_refresh_round_trip exHash exBcrypt exCfg).1 "u1" ⟨"raw1", "rt1"⟩ 100 sEmpty
    ⟨jwtSign "u1" true exCfg.accessSecret exCfg.accessExpiresSec 100, "raw1"⟩
    ⟨[⟨"u1", none, none, none, true⟩], [⟨"rt1", exHash "raw1", "u1", 100 + exCfg.refreshExpiresSec * 1000⟩]⟩
    (by decide) (by decide)

/-- C10: at the register boundary, a missing header, a header without
the `Bearer ` scheme, a malformed token, a token signed with the wrong
key, an expired token, and a valid non-guest token all make the optional
guest-id extraction yield nothing, and whenever the extraction yields
nothing the whole register request behaves exactly as if no token had
been presented (fresh registered-account path); the token never fails
the request. -/
theorem register_boundary_token_tolerance
    (hash bcryptHash : String → String) (decode : String → Option JwtClaims) (cfg : Cfg) :
    (∀ now : Nat, extractGuestUserId decode cfg.accessSecret now none = none) ∧
    (∀ (now : Nat) (hd : String), hd.startsWith "Bearer " = false →
      extractGuestUserId decode cfg.accessSecret now (some hd) = none) ∧
    (∀ (now : Nat) (hd : String), decode ((hd.splitOn " ").getD 1 "") = none →
      extractGuestUserId decode cfg.accessSecret now (some hd) = none) ∧
    (∀ (now : Nat) (hd : String) (o : JwtClaims),
      decode ((hd.splitOn " ").getD 1 "") = some o → o.key ≠ cfg.accessSecret →
      extractGuestUserId decode cfg.accessSecret now (some hd) = none) ∧
    (∀ (now : Nat) (hd : String) (o : JwtClaims),
      decode ((hd.splitOn " ").getD 1 "") = some o → o.exp ≤ now →
      extractGuestUserId decode cfg.accessSecret now (some hd) = none) ∧
    (∀ (now : Nat) (hd : String) (o : JwtClaims),
      decode ((hd.splitOn " ").getD 1 "") = some o → o.isGuest = false →
      extractGuestUserId decode cfg.accessSecret now (some hd) = none) ∧
    (∀ (email password : String) (dn : Option String) (authHeader : Option String)
        (fid : String) (f : Fresh) (now : Nat) (s : St),
      extractGuestUserId decode cfg.accessSecret now authHeader = none →
      controllerRegister hash bcryptHash decode cfg email password dn authHeader fid f now s =
        register hash bcryptHash cfg email password dn none fid f now s) := by
  refine ⟨?_, ?_, ?_, ?_, ?_, ?_, ?_⟩
  · intro now
    rfl
  · intro now hd hsw
    simp [extractGuestUserId, hsw]
  · intro now hd hdec
    rw [List.getD_eq_getElem?_getD] at hdec
    by_cases hsw : hd.startsWith "Bearer " = true
    · simp [extractGuestUserId, hsw, jwtVerify, hdec]
    · simp [extractGuestUserId, hsw]
  · intro now hd o hdec hkey
    rw [List.getD_eq_getElem?_getD] at hdec
    by_cases hsw : hd.startsWith "Bearer " = true
    · simp [extractGuestUserId, hsw, jwtVerify, hdec, hkey]
    · simp [extractGuestUserId, hsw]
  · intro now hd o hdec hexp
    rw [List.getD_eq_getElem?_getD] at hdec
    by_cases hsw : hd.startsWith "Bearer " = true
    · by_cases hkey : o.key = cfg.accessSecret
      · simp [extractGuestUserId, hsw, jwtVerify, hdec, hkey, hexp]
      · simp [extractGuestUserId, hsw, jwtVerify, hdec, hkey]
    · simp [extractGuestUserId, hsw]
  · intro now hd o hdec hguest
    rw [List.getD_eq_getElem?_getD] at hdec
    by_cases hsw : hd.startsWith "Bearer " = true
    · by_cases hkey : o.key = cfg.accessSecret
      · by_cases hexp : o.exp ≤ now
        · simp [extractGuestUserId, hsw, jwtVerify, hdec, hkey, hexp]
        · simp [extractGuestUserId, hsw, jwtVerify, hdec, hkey, hexp, hguest]
      · simp [extractGuestUserId, hsw, jwtVerify, hdec, hkey]
    · simp [extractGuestUserId, hsw]
  · intro email password dn authHeader fid f now s hext
    unfold controllerRegister
    rw [hext]

theorem register_boundary_token_tolerance_witness :
    extractGuestUserId exDecode exCfg.accessSecret 5 none = none ∧
    controllerRegister exHash exBcrypt exDecode exCfg "a@b.com" "password123" none
        none "u2" ⟨"raw5", "rt5"⟩ 5 sEmpty =
      register exHash exBcrypt exCfg "a@b.com" "password123" none none "u2"
        ⟨"raw5", "rt5"⟩ 5 sEmpty := by
  have t := register_boundary_token_tolerance exHash exBcrypt exDecode exCfg
  exact ⟨t.1 5, t.2.2.2.2.2.2 "a@b.com" "password123" none none "u2"
    ⟨"raw5", "rt5"⟩ 5 sEmpty (t.1 5)⟩

end Settle
